import Mathlib

/-!
Verification development for the power-hour playlist builder.

The repository (src/power_hour/cli.py, src/power_hour/builder.py) resolves
candidate clips from directories, playlist text files or CSV tables, filters
them by genre, applies a seeded shuffle and a count limit, resolves per-item
start offsets and emits artifacts.  This file gives a shallow embedding of the
selection and playlist-assembly pipeline and proves the frozen claims about it.

Modelling conventions:
- Python strings are Lean Strings; character-level work happens on List Char.
  Lowercasing and whitespace tests are modelled at ASCII fidelity.
- Python floats in the timing pipeline are modelled as rationals; the
  arithmetic used there (max, subtraction of small decimal values) is exact.
- Python dicts keyed by strings are modelled as association lists with
  first-match lookup; csv.DictReader produces one entry per header, so keys
  are distinct in every run of interest.
- Library internals that the repository merely calls (the Mersenne Twister
  behind random.Random, urllib.parse, moviepy handles) are modelled at their
  interface: deterministic stand-ins that preserve the properties the code
  relies on, documented at each definition.
-/

namespace PowerHour

/-- ASCII model of the whitespace class stripped by Python str.strip(). -/
def pySpace (c : Char) : Bool :=
  c = ' ' || c = '\t' || c = '\n' || c = '\r' || c = '\x0b' || c = '\x0c'

/-- Model of Python str.strip(): drop leading and trailing whitespace. -/
def pyStrip (cs : List Char) : List Char :=
  ((cs.dropWhile pySpace).reverse.dropWhile pySpace).reverse

/-- str.strip() lifted to Lean Strings. -/
def strStrip (s : String) : String := String.mk (pyStrip s.data)

/-- Model of Python str.lower() at ASCII fidelity. -/
def lowerStr (s : String) : String := String.mk (s.data.map Char.toLower)

/-- Model of Python str.split(sep) for a one-character separator: splits on
every occurrence and keeps empty pieces, so the result is always nonempty. -/
def splitChar (k : Char) : List Char → List (List Char)
  | [] => [[]]
  | c :: cs =>
    if c = k then [] :: splitChar k cs
    else
      match splitChar k cs with
      | r :: rs => (c :: r) :: rs
      | [] => [[c]]

/-- Model of the Python substring test needle in hay. -/
def subSeq (needle : List Char) : List Char → Bool
  | [] => needle.isEmpty
  | c :: rest => needle.isPrefixOf (c :: rest) || subSeq needle rest

/-- Model of Python str.endswith for char lists. -/
def endsWithL (l suf : List Char) : Bool := suf.reverse.isPrefixOf l.reverse

/-- Split a char list at the first occurrence of k, if any. -/
def splitFirst (k : Char) : List Char → Option (List Char × List Char)
  | [] => none
  | c :: cs =>
    if c = k then some ([], cs)
    else
      match splitFirst k cs with
      | some (a, b) => some (c :: a, b)
      | none => none

/-- Model of Python str.strip(k) for a single character k. -/
def stripAll (k : Char) (cs : List Char) : List Char :=
  ((cs.dropWhile (fun c => c = k)).reverse.dropWhile (fun c => c = k)).reverse

/-- Numeric value of an ASCII digit. -/
def dval (c : Char) : Nat := c.toNat - 48

/-- Consume a run of ASCII digits allowing single underscores between digits,
as Python numeric literals do.  Returns the accumulated value, the number of
digits consumed and the unconsumed rest; an underscore not followed by a digit
ends the run with the underscore left in the rest (so the whole parse fails
later, matching the Python grammar where underscores sit between digits). -/
def digitRun (acc cnt : Nat) : List Char → Nat × Nat × List Char
  | [] => (acc, cnt, [])
  | '_' :: d :: cs =>
    if d.isDigit then digitRun (acc * 10 + dval d) (cnt + 1) cs
    else (acc, cnt, '_' :: d :: cs)
  | c :: cs =>
    if c.isDigit then digitRun (acc * 10 + dval c) (cnt + 1) cs
    else (acc, cnt, c :: cs)

/-- A digit run that must start with a digit (Python rejects a leading
underscore). -/
def parseDigitRun (cs : List Char) : Option (Nat × Nat × List Char) :=
  match cs with
  | c :: _ => if c.isDigit then some (digitRun 0 0 cs) else none
  | [] => none

/-- A complete unsigned decimal literal: a digit run that consumes the whole
input. -/
def pyUnsignedInt (cs : List Char) : Option Nat :=
  match parseDigitRun cs with
  | some (v, _, rest) => if rest = [] then some v else none
  | none => none

/-- Model of Python int(str): optional surrounding whitespace, optional sign,
decimal digits with optional single underscores between digits.  Unicode
digits are outside the ASCII model.  Returns none where Python raises
ValueError. -/
def pyIntOfChars (cs0 : List Char) : Option Int :=
  match pyStrip cs0 with
  | '-' :: r => (pyUnsignedInt r).map (fun n => -(n : Int))
  | '+' :: r => (pyUnsignedInt r).map (fun n => (n : Int))
  | r => (pyUnsignedInt r).map (fun n => (n : Int))

/-- Case-insensitive comparison of a char list against a keyword. -/
def lowerEq (cs : List Char) (w : String) : Bool :=
  decide ((cs.map Char.toLower) = w.data)

/-- Ten to an integer power, as a rational. -/
def powTenQ : Int → ℚ
  | Int.ofNat n => (10 : ℚ) ^ n
  | Int.negSucc n => 1 / ((10 : ℚ) ^ (n + 1))

/-- Mantissa of a Python float literal: digits, optionally followed by a dot
and more digits, with at least one digit overall.  Returns the value and the
unconsumed rest. -/
def pyFloatMantissa (cs : List Char) : Option (ℚ × List Char) :=
  match parseDigitRun cs with
  | some (ip, _, r1) =>
    match r1 with
    | '.' :: r2 =>
      match parseDigitRun r2 with
      | some (fp, fc, r3) => some ((ip : ℚ) + (fp : ℚ) / ((10 : ℚ) ^ fc), r3)
      | none => some ((ip : ℚ), r2)
    | _ => some ((ip : ℚ), r1)
  | none =>
    match cs with
    | '.' :: r2 =>
      match parseDigitRun r2 with
      | some (fp, fc, r3) => some ((fp : ℚ) / ((10 : ℚ) ^ fc), r3)
      | none => none
    | _ => none

/-- Exponent part of a Python float literal: optional sign then digits,
consuming the whole input. -/
def pyFloatExp (cs : List Char) : Option Int :=
  match cs with
  | '-' :: r => (pyUnsignedInt r).map (fun n => -(n : Int))
  | '+' :: r => (pyUnsignedInt r).map (fun n => (n : Int))
  | r => (pyUnsignedInt r).map (fun n => (n : Int))

/-- Model of Python float(str) over finite decimal literals: optional
whitespace and sign, mantissa, optional exponent.  The non-finite spellings
inf, infinity and nan, which Python accepts, have no rational value and are
treated as unparsable here; no input in the pipeline under verification uses
them.  Returns none where Python raises ValueError. -/
def pyFloatOfChars (cs0 : List Char) : Option ℚ :=
  let cs := pyStrip cs0
  let sc : ℚ × List Char :=
    match cs with
    | '-' :: r => (-1, r)
    | '+' :: r => (1, r)
    | r => (1, r)
  if lowerEq sc.2 ("inf") || lowerEq sc.2 ("infinity") || lowerEq sc.2 ("nan") then
    none
  else
    match pyFloatMantissa sc.2 with
    | some (m, rest) =>
      match rest with
      | [] => some (sc.1 * m)
      | e :: r4 =>
        if e = 'e' || e = 'E' then
          match pyFloatExp r4 with
          | some ex => some (sc.1 * m * powTenQ ex)
          | none => none
        else none
    | none => none

/-- Embedding of cli._parse_timecode: parse seconds or mm:ss or hh:mm:ss into
rational seconds, returning none if empty or invalid.  Totality of this
definition is the never-raises guarantee of the source. -/
def parse_timecode (val : String) : Option ℚ :=
  let s := pyStrip val.data
  if s = [] then none
  else
    match pyFloatOfChars s with
    | some q => some q
    | none =>
      match (splitChar ':' s).mapM pyIntOfChars with
      | some [m, sec] => some ((m * 60 + sec : Int) : ℚ)
      | some [h, m, sec] => some ((h * 3600 + m * 60 + sec : Int) : ℚ)
      | _ => none

/-- Result of urllib.parse.urlsplit restricted to the fields the source
reads. -/
structure UrlParts where
  scheme : List Char
  netloc : List Char
  path : List Char
  query : List Char
  fragment : List Char
deriving DecidableEq

/-- Characters allowed in a URL scheme, per urllib.parse. -/
def schemeChar (c : Char) : Bool := c.isAlphanum || c = '+' || c = '-' || c = '.'

/-- Model of urllib.parse.urlsplit for the shapes the source meets: the
fragment is cut at the first hash; a scheme is split off before the first
colon when the prefix is a nonempty run of scheme characters starting with an
ASCII letter; a netloc follows a leading double slash up to the next slash or
question mark; the query follows the first question mark of the remainder.
Percent-decoding is not modelled (YouTube ids never contain escapes). -/
def pyUrlsplit (cs0 : List Char) : UrlParts :=
  let rf : List Char × List Char :=
    match splitFirst '#' cs0 with
    | some (a, b) => (a, b)
    | none => (cs0, [])
  let sr : List Char × List Char :=
    match splitFirst ':' rf.1 with
    | some (pre, post) =>
      if pre ≠ [] ∧ (pre.headD ' ').isAlpha ∧ pre.all schemeChar then
        (pre.map Char.toLower, post)
      else ([], rf.1)
    | none => ([], rf.1)
  let nr : List Char × List Char :=
    match sr.2 with
    | '/' :: '/' :: r =>
      let nl := r.takeWhile (fun c => c ≠ '/' ∧ c ≠ '?')
      (nl, r.drop nl.length)
    | _ => ([], sr.2)
  let pq : List Char × List Char :=
    match splitFirst '?' nr.2 with
    | some (a, b) => (a, b)
    | none => (nr.2, [])
  ⟨sr.1, nr.1, pq.1, pq.2, rf.2⟩

/-- Model of parse_qs(query).get(v, [empty])[0]: the value of the first
query pair whose key is exactly v and whose value is nonempty; parse_qs drops
pairs without an equals sign and, with default options, pairs with a blank
value. -/
def qsFirstV (query : List Char) : List Char :=
  match (splitChar '&' query).filterMap (fun piece =>
      match splitFirst '=' piece with
      | some (k, v) => if k = ['v'] ∧ v ≠ [] then some v else none
      | none => none) with
  | v :: _ => v
  | [] => []

/-- Embedding of cli._extract_video_id: strip the input; return it as-is when
it is a bare id (length at least 8, none of slash, question mark, ampersand);
otherwise take the path of a youtu.be URL or the first v parameter of a
youtube.com URL; any other shape passes through unchanged (the stripped
input).  The try/except around urlparse is subsumed by totality. -/
def extract_video_id (url_or_id : String) : String :=
  let s := pyStrip url_or_id.data
  if s = [] then String.mk s
  else if !(s.contains '/') && !(s.contains '?') && !(s.contains '&')
      && decide (8 ≤ s.length) then String.mk s
  else
    let u := pyUrlsplit s
    if endsWithL u.netloc (String.data ("youtu.be")) then String.mk (stripAll '/' u.path)
    else if endsWithL u.netloc (String.data ("youtube.com")) then
      let vid := qsFirstV u.query
      if vid ≠ [] then String.mk vid else String.mk s
    else String.mk s

/-- Row produced by cli._read_youtube_csv: id, title, genre strings plus
optional chorus and start times in seconds. -/
structure YtRow where
  id : String
  title : String
  genre : String
  chorus : Option ℚ
  start : Option ℚ
deriving DecidableEq

/-- Local file reference as cli uses it: the final component (Path.name) and
the parent directory rendered as a string (str(Path.parent)). -/
structure LocalPath where
  name : String
  parent : String
deriving DecidableEq

/-- Normalized genre term: the requested genre stripped and lowercased, as
both filter functions compute it. -/
def norm_term (gs : String) : String := String.mk ((pyStrip gs.data).map Char.toLower)

/-- Embedding of cli._load_genre_map over already-read CSV rows (path, genre):
rows with a blank genre are skipped; the genre field is split on the pipe,
each tag stripped and lowercased, blank tags dropped.  The Python dict is an
association list here, with updates appended (lookup takes the last match, so
later rows for the same path win, as dict assignment does); the Python set of
tags is a deduplicated list, faithful up to membership. -/
def load_genre_map (rows : List (LocalPath × String)) : List (LocalPath × List String) :=
  rows.foldl (fun m pr =>
    let g := strStrip pr.2
    if g = "" then m
    else
      let tags := (((splitChar '|' g.data).map pyStrip).filter
          (fun x => !x.isEmpty)).map (fun x => String.mk (x.map Char.toLower))
      m ++ [(pr.1, tags.dedup)]) []

/-- Last-match lookup in the genre map, matching Python dict.get semantics
under append-on-update. -/
def gmLookup (m : List (LocalPath × List String)) (p : LocalPath) : Option (List String) :=
  (m.reverse.find? (fun e => e.1 = p)).map (fun e => e.2)

/-- The mapping test of cli._filter_by_genre: the path has a mapping entry
that is nonempty (Python truthiness of the set) and contains the normalized
term. -/
def gm_tag_match (gm : List (LocalPath × List String)) (g : String) (p : LocalPath) : Bool :=
  match gmLookup gm p with
  | some mapped => decide (mapped ≠ []) && mapped.contains g
  | none => false

/-- The fallback test of cli._filter_by_genre: the normalized term is a
substring of the lowercased filename or of the lowercased parent directory
string. -/
def sub_match (g : String) (p : LocalPath) : Bool :=
  subSeq g.data (p.name.data.map Char.toLower)
    || subSeq g.data (p.parent.data.map Char.toLower)

/-- Embedding of cli._filter_by_genre: with no genre (None or blank) all
files pass; otherwise a file is kept when the mapping matches, or, falling
through the continue, when the substring heuristic matches. -/
def filter_by_genre (files : List LocalPath) (genre : Option String)
    (gm : List (LocalPath × List String)) : List LocalPath :=
  match genre with
  | none => files
  | some gs =>
    if gs = "" then files
    else
      let g := norm_term gs
      files.filter (fun p => gm_tag_match gm g p || sub_match g p)

/-- Embedding of cli._filter_items_by_genre: split each row genre field on
the pipe, strip the parts, drop blanks (falling back to the raw lowercased
field when splitting leaves nothing but the field is nonempty), and keep the
row when the normalized term equals or is a substring of any part. -/
def filter_items_by_genre (items : List YtRow) (genre : Option String) : List YtRow :=
  match genre with
  | none => items
  | some gs =>
    if gs = "" then items
    else
      let g := (pyStrip gs.data).map Char.toLower
      items.filter (fun it =>
        let raw := it.genre.data.map Char.toLower
        let parts0 := ((splitChar '|' raw).map pyStrip).filter (fun x => !x.isEmpty)
        let parts := if parts0 = [] ∧ raw ≠ [] then [raw] else parts0
        parts.any (fun p => decide (g = p) || subSeq g p))

/-- The genre-presence probe of cli.build_youtube_html: some row carries a
nonblank genre value. -/
def any_genre_val (rows : List YtRow) : Bool :=
  rows.any (fun r => !(strStrip r.genre).isEmpty)

/-- Python truthiness of the optional genre argument. -/
def genre_truthy : Option String → Bool
  | none => false
  | some g => decide (g ≠ "")

/-- Outcome of the CSV genre-filter stage of cli.build_youtube_html: either
the pipeline proceeds with the surviving rows (warned records whether the
no-genre-data warning was printed and filtering skipped), or typer.BadParameter
is raised. -/
inductive GenreStage
  | proceed (warned : Bool) (rows : List YtRow)
  | badParameter
deriving DecidableEq

/-- Embedding of cli.build_youtube_html lines 780-795: when a genre is
requested and no row has any genre value, warn and skip filtering; otherwise
apply the row filter; if no rows remain, raise BadParameter. -/
def csv_genre_stage (rows : List YtRow) (genre : Option String) : GenreStage :=
  let warned := genre_truthy genre && !(any_genre_val rows)
  let rows2 :=
    if genre_truthy genre then
      if !(any_genre_val rows) then rows
      else filter_items_by_genre rows genre
    else rows
  if rows2.length = 0 then GenreStage.badParameter
  else GenreStage.proceed warned rows2

/-- Key normalization of cli._read_youtube_csv: keys stripped and lowercased,
values stripped.  A DictReader row is an association list with one entry per
header; lookup takes the first match. -/
def normRow (row : List (String × String)) : List (String × String) :=
  row.map (fun kv => (lowerStr (strStrip kv.1), strStrip kv.2))

/-- First-match association lookup, the dict access of the row model. -/
def dictGet (d : List (String × String)) (k : String) : Option String :=
  (d.find? (fun kv => kv.1 = k)).map (fun kv => kv.2)

/-- Embedding of pick_key inside cli._read_youtube_csv: first the exact
phase, returning the stripped value of the first candidate key present with a
nonblank value; then the fuzzy phase, returning the stripped value of the
first entry whose key contains some candidate as a substring and whose value
is nonblank; the empty string when both fail. -/
def pick_key (d : List (String × String)) (cands : List String) : String :=
  match cands.findSome? (fun k =>
      match dictGet d k with
      | some v => if strStrip v ≠ "" then some (strStrip v) else none
      | none => none) with
  | some v => v
  | none =>
    match d.findSome? (fun kv =>
        if cands.any (fun w => subSeq w.data (lowerStr kv.1).data) ∧ strStrip kv.2 ≠ ""
        then some (strStrip kv.2) else none) with
    | some v => v
    | none => ""

/-- Header synonym lists of cli._read_youtube_csv. -/
def idCands : List String := ["id", "video_id", "youtube_id"]

def urlCands : List String := ["url", "link", "youtube_url"]

def titleCands : List String := ["title", "name", "track"]

def genreCands : List String := ["genre", "genres", "tag", "tags"]

def chorusCands : List String := ["chorus", "chorus_at", "chorus_time"]

def startCands : List String := ["start", "start_at", "offset", "clip_start", "start_seconds"]

/-- The reference a CSV row resolves to: the id value when nonempty, else the
url value (id preferred over url). -/
def rowRef (row : List (String × String)) : String :=
  let lower := normRow row
  let vid := pick_key lower idCands
  let url := pick_key lower urlCands
  if vid ≠ "" then vid else url

/-- The resolved row record built for a row that carries a reference. -/
def resolvedOf (row : List (String × String)) : YtRow :=
  let lower := normRow row
  { id := extract_video_id (rowRef row)
    title := pick_key lower titleCands
    genre := pick_key lower genreCands
    chorus := parse_timecode (pick_key lower chorusCands)
    start := parse_timecode (pick_key lower startCands) }

/-- Per-row step of cli._read_youtube_csv: rows lacking both id and url are
dropped. -/
def resolveRow (row : List (String × String)) : Option YtRow :=
  if rowRef row = "" then none else some (resolvedOf row)

/-- Embedding of cli._read_youtube_csv over the DictReader rows. -/
def read_youtube_csv (rows : List (List (String × String))) : List YtRow :=
  rows.filterMap resolveRow

/-- Embedding of the per-item timing resolution inlined in
cli.build_youtube_html: a present chorus wins and starts pre_chorus seconds
earlier, clamped at zero; else a present start field, clamped at zero; else
the default start. -/
def resolve_start (chorus start_field : Option ℚ) (pre_chorus default_start : ℚ) : ℚ :=
  match chorus with
  | some c => max 0 (c - pre_chorus)
  | none =>
    match start_field with
    | some s => max 0 s
    | none => default_start

/-- Embedding of the final_items assembly loop of cli.build_youtube_html:
rows with an empty id are skipped; each kept row contributes its id, title
and resolved start offset, fixed here once at assembly time. -/
def assemble_final_items (rows : List YtRow) (pre_chorus default_start : ℚ) :
    List (String × String × ℚ) :=
  rows.filterMap (fun r =>
    if r.id = "" then none
    else some (r.id, r.title, resolve_start r.chorus r.start pre_chorus default_start))

/-- Injective code of an integer seed into a natural, for the PRNG stand-in. -/
def intCode (s : Int) : Nat := if s < 0 then 2 * s.natAbs + 1 else 2 * s.natAbs

/-- Stand-in for random.Random(seed)._randbelow: the Mersenne Twister is
library code outside this repository, so it is modelled as a concrete
deterministic function of the seed and the call index that returns a value
below the bound - exactly the interface contract the source relies on for
reproducibility. -/
def mtRandbelow (seedVal : Int) (k : Nat) (n : Nat) : Nat :=
  if n = 0 then 0
  else (intCode seedVal + 2654435761 * (k + 1) + 40017 * (k + 1) * (k + 1)) % n

/-- Exchange the entries at two positions of a list; out-of-range positions
leave the list unchanged. -/
def listSwap {α : Type} (l : List α) (i j : Nat) : List α :=
  match l[i]?, l[j]? with
  | some a, some b => (l.set i b).set j a
  | _, _ => l

/-- The Fisher-Yates loop of random.shuffle: for i from n-1 down to 1 swap
position i with a drawn position below i+1; k tracks the randbelow call
index. -/
def pyShuffleGo {α : Type} (rb : Nat → Nat → Nat) (n : Nat) : Nat → List α → List α
  | 0, l => l
  | i + 1, l => pyShuffleGo rb n i (listSwap l (i + 1) (rb (n - (i + 2)) (i + 2)))

/-- Model of random.Random(seed).shuffle driven by a randbelow function. -/
def pyShuffle {α : Type} (rb : Nat → Nat → Nat) (l : List α) : List α :=
  pyShuffleGo rb l.length (l.length - 1) l

/-- The seed actually feeding random.Random: the explicit seed when given,
otherwise ambient OS entropy, made explicit here as a parameter. -/
def seedValue (seed : Option Int) (entropy : Int) : Int :=
  match seed with
  | some s => s
  | none => entropy

/-- Embedding of cli._pick: copy the list, shuffle it when asked with a PRNG
seeded from the seed (or entropy), then truncate to the first limit items
when limit is positive. -/
def pick (entropy : Int) (files : List LocalPath) (limit : Int) (shuffle : Bool)
    (seed : Option Int) : List LocalPath :=
  let items := if shuffle then pyShuffle (mtRandbelow (seedValue seed entropy)) files else files
  if 0 < limit then items.take limit.toNat else items

/-- Embedding of cli._pick_dict, the same selection over CSV rows. -/
def pick_dict (entropy : Int) (items : List YtRow) (limit : Int) (shuffle : Bool)
    (seed : Option Int) : List YtRow :=
  let lst := if shuffle then pyShuffle (mtRandbelow (seedValue seed entropy)) items else items
  if 0 < limit then lst.take limit.toNat else lst

/-- Embedding of cli._pick_tuples, the same selection over (id, title)
pairs. -/
def pick_tuples (entropy : Int) (items : List (String × String)) (limit : Int) (shuffle : Bool)
    (seed : Option Int) : List (String × String) :=
  let lst := if shuffle then pyShuffle (mtRandbelow (seedValue seed entropy)) items else items
  if 0 < limit then lst.take limit.toNat else lst

/-- The warning condition of cli.build after picking: fewer files available
than requested.  It is a console message in the source, not an exception. -/
def build_warns_fewer (entropy : Int) (files : List LocalPath) (limit : Int) (shuffle : Bool)
    (seed : Option Int) : Bool :=
  decide (((pick entropy files limit shuffle seed).length : Int) < limit)

/-- Behaviour oracle for one input clip of builder.build_power_hour: whether
opening it in _load_and_trim succeeds, and whether the close() of its handle
succeeds.  The moviepy internals are external; only success or raised
exception is observable to the control flow under verification. -/
structure ClipSpec where
  loadOk : Bool
  closeOk : Bool
deriving DecidableEq

/-- The exceptions builder.build_power_hour can propagate. -/
inductive BuildErr
  | emptyInput
  | probeFail
  | loadFail (i : Nat)
  | writeFail
deriving DecidableEq

/-- Observable cleanup events of the finally block: a close call that
returned, or a close call that raised and was swallowed by the bare except. -/
inductive CloseEv
  | closed (i : Nat)
  | closeRaisedSwallowed (i : Nat)
deriving DecidableEq

/-- Trace of one run of builder.build_power_hour: the indices whose handles
were opened in loop order, the cleanup events of the finally block, and the
propagated result. -/
structure BuildTrace where
  openedIdx : List Nat
  closeEvents : List CloseEv
  result : Except BuildErr Unit

/-- The clip-loading loop: open clips left to right, stopping at the first
constructor failure (whose handle therefore never exists).  Returns the
opened indices and the index of the failure, if any. -/
def load_loop : List ClipSpec → Nat → List Nat × Option Nat
  | [], _ => ([], none)
  | s :: rest, i =>
    if s.loadOk then
      let r := load_loop rest (i + 1)
      (i :: r.1, r.2)
    else ([], some i)

/-- One iteration of the finally block: c.close() inside try/except pass.
The Except value is the close call itself; the match is the bare except that
swallows a raised exception. -/
def try_close (s : ClipSpec) (i : Nat) : CloseEv :=
  match (if s.closeOk then Except.ok () else Except.error i : Except Nat Unit) with
  | Except.ok _ => CloseEv.closed i
  | Except.error j => CloseEv.closeRaisedSwallowed j

/-- The finally block of builder.build_power_hour: iterate over every clip
handle accumulated so far and attempt to close each, swallowing close
failures. -/
def close_all (specs : List ClipSpec) (opened : List Nat) : List CloseEv :=
  opened.map (fun i => try_close (specs.getD i ⟨true, true⟩) i)

/-- Embedding of the control flow of builder.build_power_hour: empty input
raises before the try; when no target size is given the first clip is probed
inside a with-block (its handle closed by the context manager, before any
loop handle exists); then the loop opens clips under the try, composition and
write follow, and the finally closes every accumulated handle whatever the
outcome.  probeNeeded and probeOk model the optional probe, writeOk the
compose-and-write steps. -/
def build_power_hour (specs : List ClipSpec) (probeNeeded probeOk writeOk : Bool) : BuildTrace :=
  if specs.length = 0 then ⟨[], [], Except.error BuildErr.emptyInput⟩
  else if probeNeeded && !probeOk then ⟨[], [], Except.error BuildErr.probeFail⟩
  else
    let loaded := load_loop specs 0
    let result : Except BuildErr Unit :=
      match loaded.2 with
      | some i => Except.error (BuildErr.loadFail i)
      | none => if writeOk then Except.ok () else Except.error BuildErr.writeFail
    ⟨loaded.1, close_all specs loaded.1, result⟩

/-! ## Lemmas about the shuffle model -/

theorem cons_set_perm {α : Type} :
    ∀ (xs : List α) (k : Nat) (x b : α), xs[k]? = some b →
      List.Perm (b :: xs.set k x) (x :: xs) := by
  intro xs
  induction xs with
  | nil => intro k x b h; simp at h
  | cons y ys ih =>
    intro k x b h
    cases k with
    | zero =>
      simp only [List.getElem?_cons_zero, Option.some.injEq] at h
      subst h
      exact List.Perm.swap x y ys
    | succ k =>
      simp only [List.getElem?_cons_succ] at h
      have h2 := ih k x b h
      have s1 : List.Perm (b :: y :: ys.set k x) (y :: b :: ys.set k x) :=
        List.Perm.swap y b (ys.set k x)
      have s2 : List.Perm (y :: b :: ys.set k x) (y :: x :: ys) := h2.cons y
      have s3 : List.Perm (y :: x :: ys) (x :: y :: ys) := List.Perm.swap x y ys
      exact (s1.trans s2).trans s3

theorem set_set_perm {α : Type} :
    ∀ (l : List α) (i j : Nat) (a b : α), l[i]? = some a → l[j]? = some b →
      List.Perm ((l.set i b).set j a) l := by
  intro l
  induction l with
  | nil => intro i j a b h _; simp at h
  | cons x xs ih =>
    intro i j a b hi hj
    cases i with
    | zero =>
      simp only [List.getElem?_cons_zero, Option.some.injEq] at hi
      subst hi
      cases j with
      | zero =>
        simp only [List.getElem?_cons_zero, Option.some.injEq] at hj
        subst hj
        exact List.Perm.refl _
      | succ j =>
        simp only [List.getElem?_cons_succ] at hj
        exact cons_set_perm xs j x b hj
    | succ i =>
      cases j with
      | zero =>
        simp only [List.getElem?_cons_zero, Option.some.injEq] at hj
        subst hj
        simp only [List.getElem?_cons_succ] at hi
        exact cons_set_perm xs i x a hi
      | succ j =>
        simp only [List.getElem?_cons_succ] at hi hj
        exact (ih i j a b hi hj).cons x

theorem listSwap_perm {α : Type} (l : List α) (i j : Nat) :
    List.Perm (listSwap l i j) l := by
  rcases hi : l[i]? with _ | a
  · unfold listSwap
    rw [hi]
  · rcases hj : l[j]? with _ | b
    · unfold listSwap
      rw [hi, hj]
    · unfold listSwap
      rw [hi, hj]
      exact set_set_perm l i j a b hi hj

theorem pyShuffleGo_perm {α : Type} (rb : Nat → Nat → Nat) (n : Nat) :
    ∀ (i : Nat) (l : List α), List.Perm (pyShuffleGo rb n i l) l := by
  intro i
  induction i with
  | zero => intro l; exact List.Perm.refl l
  | succ i ih =>
    intro l
    exact (ih (listSwap l (i + 1) (rb (n - (i + 2)) (i + 2)))).trans
      (listSwap_perm l (i + 1) (rb (n - (i + 2)) (i + 2)))

theorem pyShuffle_perm {α : Type} (rb : Nat → Nat → Nat) (l : List α) :
    List.Perm (pyShuffle rb l) l :=
  pyShuffleGo_perm rb l.length (l.length - 1) l

theorem pyShuffle_length {α : Type} (rb : Nat → Nat → Nat) (l : List α) :
    (pyShuffle rb l).length = l.length :=
  (pyShuffle_perm rb l).length_eq

theorem shuffle_branch_length {α : Type} (rb : Nat → Nat → Nat) (shuffle : Bool) (l : List α) :
    (if shuffle then pyShuffle rb l else l).length = l.length := by
  cases shuffle <;> simp [pyShuffle_length]

/-! ## Claim theorems -/

/-- C1: selection is a deterministic function of (items, limit, shuffle,
seed): for every item list, limit and integer seed S, two calls of _pick,
_pick_dict or _pick_tuples with shuffle on, seed S, the same list and the
same limit agree on the output ordering, whatever the ambient entropy of
either call was. -/
theorem pick_deterministic_in_seed :
    ∀ (e1 e2 : Int) (files : List LocalPath) (rows : List YtRow)
      (tups : List (String × String)) (limit : Int) (S : Int),
      pick e1 files limit true (some S) = pick e2 files limit true (some S)
      ∧ pick_dict e1 rows limit true (some S) = pick_dict e2 rows limit true (some S)
      ∧ pick_tuples e1 tups limit true (some S) = pick_tuples e2 tups limit true (some S) := by
  intro e1 e2 files rows tups limit S
  exact ⟨rfl, rfl, rfl⟩

/-- C2: for limit at least 1, _pick returns exactly limit items when enough
are available; when limit exceeds the candidate count it returns all of the
items - the shuffle permutation of them when shuffling, the original order
otherwise - and the warning condition of the build caller holds (a console
message, not an error). -/
theorem pick_length_and_warning :
    ∀ (e : Int) (files : List LocalPath) (limit : Int) (shuffle : Bool) (seed : Option Int),
      1 ≤ limit →
      ((limit ≤ (files.length : Int)) →
        ((pick e files limit shuffle seed).length : Int) = limit)
      ∧ (((files.length : Int) < limit) →
          pick e files limit shuffle seed
              = (if shuffle then pyShuffle (mtRandbelow (seedValue seed e)) files else files)
          ∧ List.Perm (pyShuffle (mtRandbelow (seedValue seed e)) files) files
          ∧ build_warns_fewer e files limit shuffle seed = true) := by
  intro e files limit shuffle seed h1
  have hitems := shuffle_branch_length (mtRandbelow (seedValue seed e)) shuffle files
  have hpos : (0 : Int) < limit := by omega
  constructor
  · intro hle
    simp only [pick, if_pos hpos, List.length_take, hitems]
    omega
  · intro hlt
    refine ⟨?_, pyShuffle_perm _ _, ?_⟩
    · simp only [pick, if_pos hpos]
      apply List.take_of_length_le
      rw [hitems]
      omega
    · simp only [build_warns_fewer, decide_eq_true_eq, pick, if_pos hpos,
        List.length_take, hitems]
      omega

/-- C10: the selection functions themselves do not enforce the limit
precondition of the spec: called with a nonpositive limit they skip the
truncation entirely and return all items (the shuffle permutation of them
when shuffling, which is a permutation of the input, hence nonempty for
nonempty input), rather than an empty list; the minimum of 1 lives only in
the CLI option declarations. -/
theorem pick_nonpositive_limit_no_truncation :
    ∀ (e : Int) (files : List LocalPath) (rows : List YtRow)
      (tups : List (String × String)) (limit : Int) (shuffle : Bool) (seed : Option Int),
      limit ≤ 0 →
      (pick e files limit shuffle seed
          = (if shuffle then pyShuffle (mtRandbelow (seedValue seed e)) files else files)
        ∧ (pick e files limit shuffle seed).length = files.length)
      ∧ (pick_dict e rows limit shuffle seed
          = (if shuffle then pyShuffle (mtRandbelow (seedValue seed e)) rows else rows)
        ∧ (pick_dict e rows limit shuffle seed).length = rows.length)
      ∧ (pick_tuples e tups limit shuffle seed
          = (if shuffle then pyShuffle (mtRandbelow (seedValue seed e)) tups else tups)
        ∧ (pick_tuples e tups limit shuffle seed).length = tups.length) := by
  intro e files rows tups limit shuffle seed h
  have hneg : ¬ (0 : Int) < limit := by omega
  refine ⟨⟨?_, ?_⟩, ⟨?_, ?_⟩, ⟨?_, ?_⟩⟩ <;>
    simp only [pick, pick_dict, pick_tuples, if_neg hneg, shuffle_branch_length]

/-- C10 witness: at limit 0 on a singleton list the selection returns the
whole list, not an empty one. -/
theorem pick_nonpositive_limit_witness :
    pick 0 [⟨"a.mp4", "/v"⟩] 0 false none
        = (if false then pyShuffle (mtRandbelow (seedValue none 0)) [⟨"a.mp4", "/v"⟩]
           else [⟨"a.mp4", "/v"⟩])
      ∧ (pick 0 [⟨"a.mp4", "/v"⟩] 0 false none).length = 1 :=
  (pick_nonpositive_limit_no_truncation 0 [⟨"a.mp4", "/v"⟩] [] [] 0 false none (by decide)).1

/-- C2 witness: with three files and limit 2 the pick has length 2; with one
file and limit 3 the pick is the whole list and the warning condition
holds. -/
theorem pick_length_and_warning_witness :
    ((pick 0 [⟨"a.mp4", "/v"⟩, ⟨"b.mp4", "/v"⟩, ⟨"c.mov", "/v"⟩] 2 true (some 7)).length : Int) = 2
    ∧ (pick 0 [⟨"a.mp4", "/v"⟩] 3 false none
        = (if false then
            pyShuffle (mtRandbelow (seedValue none 0)) ([⟨"a.mp4", "/v"⟩] : List LocalPath)
           else [⟨"a.mp4", "/v"⟩])
      ∧ List.Perm (pyShuffle (mtRandbelow (seedValue none 0)) ([⟨"a.mp4", "/v"⟩] : List LocalPath))
          [⟨"a.mp4", "/v"⟩]
      ∧ build_warns_fewer 0 [⟨"a.mp4", "/v"⟩] 3 false none = true) :=
  ⟨(pick_length_and_warning 0 ([⟨"a.mp4", "/v"⟩, ⟨"b.mp4", "/v"⟩, ⟨"c.mov", "/v"⟩] : List LocalPath)
      2 true (some 7) (by decide)).1 (by decide),
   (pick_length_and_warning 0 ([⟨"a.mp4", "/v"⟩] : List LocalPath) 3 false none
      (by decide)).2 (by decide)⟩

theorem assemble_eq_filter_map (rows : List YtRow) (p d : ℚ) :
    assemble_final_items rows p d
      = (rows.filter (fun r => !(r.id == ""))).map
          (fun r => (r.id, r.title, resolve_start r.chorus r.start p d)) := by
  induction rows with
  | nil => rfl
  | cons r t ih =>
    by_cases h : r.id = "" <;>
      simp [assemble_final_items, List.filter_cons, h, ih, List.filterMap_cons] <;>
      simpa [assemble_final_items] using ih

/-- C3: every selected CSV row with a nonempty id contributes to the emitted
playlist a start offset resolved once at assembly time with the priority
chorus first (clamped at zero after subtracting the pre-chorus offset), then
the start field (clamped at zero), then the default; in particular chorus 40
with pre-chorus 10 gives 30, chorus 5 with pre-chorus 10 clamps to 0, no
chorus with start 20 gives 20, and neither present gives the default
start. -/
theorem assembly_resolves_start_with_priority :
    (∀ (rows : List YtRow) (p d : ℚ),
      assemble_final_items rows p d
        = (rows.filter (fun r => !(r.id == ""))).map
            (fun r => (r.id, r.title, resolve_start r.chorus r.start p d)))
    ∧ (∀ (c : ℚ) (st : Option ℚ) (p d : ℚ), resolve_start (some c) st p d = max 0 (c - p))
    ∧ (∀ (s p d : ℚ), resolve_start none (some s) p d = max 0 s)
    ∧ (∀ (p d : ℚ), resolve_start none none p d = d)
    ∧ (∀ (st : Option ℚ) (d : ℚ), resolve_start (some 40) st 10 d = 30)
    ∧ (∀ (st : Option ℚ) (d : ℚ), resolve_start (some 5) st 10 d = 0)
    ∧ (∀ (p d : ℚ), resolve_start none (some 20) p d = 20) := by
  refine ⟨assemble_eq_filter_map, fun c st p d => rfl, fun s p d => rfl, fun p d => rfl,
    ?_, ?_, ?_⟩
  · intro st d
    show max 0 (40 - 10 : ℚ) = 30
    norm_num
  · intro st d
    show max 0 (5 - 10 : ℚ) = 0
    norm_num
  · intro p d
    show max 0 (20 : ℚ) = 20
    norm_num

/-- C4: the timestamp parser accepts plain seconds, mm:ss and hh:mm:ss, and
resolves the empty string and unparsable text to absent instead of raising -
totality of parse_timecode is the no-raise guarantee; the five reference
points of the claim evaluate as stated. -/
theorem parse_timecode_reference_points :
    parse_timecode ("90") = some 90
    ∧ parse_timecode ("1:30") = some 90
    ∧ parse_timecode ("1:01:30") = some 3690
    ∧ parse_timecode ("") = none
    ∧ parse_timecode ("abc") = none := by
  refine ⟨?_, ?_, ?_, rfl, rfl⟩
  · have h : parse_timecode ("90") = some ((1 : ℚ) * ((90 : ℕ) : ℚ)) := rfl
    rw [h]; norm_num
  · have h : parse_timecode ("1:30") = some (((90 : ℤ) : ℚ)) := rfl
    rw [h]; norm_num
  · have h : parse_timecode ("1:01:30") = some (((3690 : ℤ) : ℚ)) := rfl
    rw [h]; norm_num

/-- C5: when a genre filter is requested over a CSV source with no genre
data at all and a nonempty candidate set, filtering is skipped - all rows
pass through - and the warning is surfaced; when some genre data exists and
the row filter leaves nothing, BadParameter is raised instead of skipping or
silently emitting an empty playlist. -/
theorem genre_filter_skip_or_error :
    ∀ (rows : List YtRow) (g : String), g ≠ "" →
      ((any_genre_val rows = false ∧ rows ≠ []) →
        csv_genre_stage rows (some g) = GenreStage.proceed true rows)
      ∧ ((any_genre_val rows = true ∧ filter_items_by_genre rows (some g) = []) →
        csv_genre_stage rows (some g) = GenreStage.badParameter) := by
  intro rows g hg
  constructor
  · intro ⟨hnone, hne⟩
    have hlen : rows.length ≠ 0 := by
      intro h
      exact hne (List.length_eq_zero.mp h)
    simp [csv_genre_stage, genre_truthy, hg, hnone, hlen]
  · intro ⟨hsome, hempty⟩
    simp [csv_genre_stage, genre_truthy, hg, hsome, hempty]

/-- C5 witness: one row with blank genre makes the stage warn and pass the
row through; one row carrying genre pop with a filter for rock makes the
stage raise BadParameter. -/
theorem genre_filter_skip_or_error_witness :
    csv_genre_stage [⟨"id1", "t", "", none, none⟩] (some ("rock"))
        = GenreStage.proceed true [⟨"id1", "t", "", none, none⟩]
    ∧ csv_genre_stage [⟨"id2", "t", "pop", none, none⟩] (some ("rock"))
        = GenreStage.badParameter :=
  ⟨(genre_filter_skip_or_error ([⟨"id1", "t", "", none, none⟩] : List YtRow) ("rock")
      (by decide)).1 ⟨by decide, by decide⟩,
   (genre_filter_skip_or_error ([⟨"id2", "t", "pop", none, none⟩] : List YtRow) ("rock")
      (by decide)).2 ⟨by decide, by decide⟩⟩

/-- C6 counterexample: the claim says the substring fallback applies only to
paths lacking a mapping entry, so a path mapped to pop only should be
excluded when filtering for rock; but _filter_by_genre falls through to the
filename heuristic for every path whose mapping misses, and rock_song.mp4 is
included although its mapping entry exists and does not contain rock. -/
theorem filter_by_genre_mapped_fallback_cex :
    filter_by_genre [⟨"rock_song.mp4", "/music"⟩] (some ("rock"))
        (load_genre_map [(⟨"rock_song.mp4", "/music"⟩, "Pop")])
      = [⟨"rock_song.mp4", "/music"⟩]
    ∧ gmLookup (load_genre_map [(⟨"rock_song.mp4", "/music"⟩, "Pop")])
        ⟨"rock_song.mp4", "/music"⟩ = some [("pop")]
    ∧ gm_tag_match (load_genre_map [(⟨"rock_song.mp4", "/music"⟩, "Pop")])
        (norm_term ("rock")) ⟨"rock_song.mp4", "/music"⟩ = false := by
  refine ⟨by decide, by decide, by decide⟩

/-- C6 amended: a path is included by the genre filter exactly when its
mapping entry is nonempty and contains the normalized term, or the term is a
substring of its lowercased filename or parent-directory string - the
substring fallback applies to every path, including those whose mapping entry
exists but does not contain the term, with the mapping checked first. -/
theorem filter_by_genre_membership :
    ∀ (files : List LocalPath) (gs : String) (gm : List (LocalPath × List String))
      (p : LocalPath), gs ≠ "" →
      (p ∈ filter_by_genre files (some gs) gm ↔
        p ∈ files ∧ (gm_tag_match gm (norm_term gs) p = true ∨ sub_match (norm_term gs) p = true)) := by
  intro files gs gm p hg
  simp [filter_by_genre, hg, List.mem_filter, Bool.or_eq_true]

/-- C6 witness: a path mapped to pop is included when filtering for pop via
its mapping entry. -/
theorem filter_by_genre_membership_witness :
    (⟨"rock_song.mp4", "/music"⟩ : LocalPath) ∈
      filter_by_genre [⟨"rock_song.mp4", "/music"⟩] (some ("pop"))
        (load_genre_map [(⟨"rock_song.mp4", "/music"⟩, "Pop")]) :=
  (filter_by_genre_membership ([⟨"rock_song.mp4", "/music"⟩] : List LocalPath) ("pop")
      (load_genre_map [(⟨"rock_song.mp4", "/music"⟩, "Pop")]) ⟨"rock_song.mp4", "/music"⟩
      (by decide)).mpr ⟨by decide, Or.inl (by decide)⟩

/-- C7: extract_video_id returns a bare id unchanged (length at least 8, no
slash, question mark or ampersand; whitespace-free, since an id is stripped
before the tests); it takes the path component of a youtu.be URL and the v
query parameter of a youtube.com watch URL; and an unrecognized shape passes
through unchanged as a best-effort id, never raising - totality of the
definition.  The closed conjuncts exercise each recognized and unrecognized
shape. -/
theorem extract_video_id_shapes :
    (∀ s : String, pyStrip s.data = s.data →
      s.data.contains '/' = false → s.data.contains '?' = false →
      s.data.contains '&' = false → 8 ≤ s.length →
      extract_video_id s = s)
    ∧ extract_video_id ("https://youtu.be/dQw4w9WgXcQ") = ("dQw4w9WgXcQ")
    ∧ extract_video_id ("https://www.youtube.com/watch?v=dQw4w9WgXcQ") = ("dQw4w9WgXcQ")
    ∧ extract_video_id ("https://example.com/watch?v=abc12345")
        = ("https://example.com/watch?v=abc12345")
    ∧ extract_video_id ("abc") = ("abc") := by
  refine ⟨?_, by decide, by decide, by decide, by decide⟩
  intro s h0 h1 h2 h3 h4
  obtain ⟨d⟩ := s
  have hd0 : (String.mk d).data = d := rfl
  rw [hd0] at h0 h1 h2 h3
  have hlen : 8 ≤ d.length := h4
  have hne : ¬ d = [] := by
    intro h
    rw [h] at hlen
    simp at hlen
  show extract_video_id (String.mk d) = String.mk d
  unfold extract_video_id
  rw [hd0, h0, if_neg hne, if_pos]
  simp at h1 h2 h3
  simp [h1, h2, h3]
  exact hlen

/-- C7 witness: a concrete bare id is returned unchanged. -/
theorem extract_video_id_shapes_witness :
    extract_video_id ("dQw4w9WgXcQ") = ("dQw4w9WgXcQ") :=
  extract_video_id_shapes.1 ("dQw4w9WgXcQ") (by decide) (by decide) (by decide)
    (by decide) (by decide)

theorem read_csv_eq_filter_map (rows : List (List (String × String))) :
    read_youtube_csv rows = (rows.filter (fun r => !(rowRef r == ""))).map resolvedOf := by
  induction rows with
  | nil => rfl
  | cons r t ih =>
    by_cases h : rowRef r = "" <;>
      simp [read_youtube_csv, resolveRow, List.filter_cons, List.filterMap_cons, h] <;>
      simpa [read_youtube_csv] using ih

/-- C8: _read_youtube_csv resolves exactly the rows carrying a nonempty id
or url value - the result is the image of the rows that carry a reference,
so refless rows are dropped entirely and do not appear in the resolved
candidate count - and when the id candidates yield a nonempty value it is
preferred over the url value as the reference of the resolved row. -/
theorem read_youtube_csv_refs :
    (∀ rows : List (List (String × String)),
      read_youtube_csv rows = (rows.filter (fun r => !(rowRef r == ""))).map resolvedOf)
    ∧ (∀ rows : List (List (String × String)),
      (read_youtube_csv rows).length = (rows.filter (fun r => !(rowRef r == ""))).length)
    ∧ (∀ row : List (String × String), pick_key (normRow row) idCands ≠ "" →
      rowRef row = pick_key (normRow row) idCands ∧ resolveRow row = some (resolvedOf row)) := by
  refine ⟨read_csv_eq_filter_map, ?_, ?_⟩
  · intro rows
    rw [read_csv_eq_filter_map, List.length_map]
  · intro row hid
    have href : rowRef row = pick_key (normRow row) idCands := by
      simp [rowRef, hid]
    refine ⟨href, ?_⟩
    have hne : rowRef row ≠ "" := by
      rw [href]
      exact hid
    simp [resolveRow, hne]

/-- C8 witness: a row with both id and url resolves through the id value,
and a three-row CSV with one refless row resolves to two candidates. -/
theorem read_youtube_csv_refs_witness :
    pick_key (normRow [("id", "abcdefgh"), ("url", "https://youtu.be/zzzzzzzz")]) idCands ≠ ""
    ∧ (rowRef [("id", "abcdefgh"), ("url", "https://youtu.be/zzzzzzzz")]
        = pick_key (normRow [("id", "abcdefgh"), ("url", "https://youtu.be/zzzzzzzz")]) idCands
      ∧ resolveRow [("id", "abcdefgh"), ("url", "https://youtu.be/zzzzzzzz")]
        = some (resolvedOf [("id", "abcdefgh"), ("url", "https://youtu.be/zzzzzzzz")]))
    ∧ (read_youtube_csv [[("id", "abcdefgh")], [("note", "x")],
        [("url", "https://youtu.be/zzzzzzzz")]]).length = 2 :=
  ⟨by decide,
   read_youtube_csv_refs.2.2 [("id", "abcdefgh"), ("url", "https://youtu.be/zzzzzzzz")] (by decide),
   by
    rw [read_youtube_csv_refs.2.1 [[("id", "abcdefgh")], [("note", "x")],
        [("url", "https://youtu.be/zzzzzzzz")]]]
    decide⟩

theorem try_close_cases (s : ClipSpec) (i : Nat) :
    try_close s i = CloseEv.closed i ∨ try_close s i = CloseEv.closeRaisedSwallowed i := by
  cases h : s.closeOk <;> simp [try_close, h]

theorem close_all_attempts (specs : List ClipSpec) (opened : List Nat) (i : Nat)
    (h : i ∈ opened) :
    CloseEv.closed i ∈ close_all specs opened
      ∨ CloseEv.closeRaisedSwallowed i ∈ close_all specs opened := by
  have hm : try_close (specs.getD i ⟨true, true⟩) i ∈ close_all specs opened :=
    List.mem_map_of_mem (fun j => try_close (specs.getD j ⟨true, true⟩) j) h
  rcases try_close_cases (specs.getD i ⟨true, true⟩) i with hc | hc
  · exact Or.inl (hc ▸ hm)
  · exact Or.inr (hc ▸ hm)

theorem load_loop_congr :
    ∀ (s1 s2 : List ClipSpec) (k : Nat), s2.map ClipSpec.loadOk = s1.map ClipSpec.loadOk →
      load_loop s2 k = load_loop s1 k := by
  intro s1
  induction s1 with
  | nil =>
    intro s2 k h
    cases s2 with
    | nil => rfl
    | cons b t2 => simp at h
  | cons a t1 ih =>
    intro s2 k h
    cases s2 with
    | nil => simp at h
    | cons b t2 =>
      simp only [List.map_cons, List.cons.injEq] at h
      simp only [load_loop, h.1, ih t2 (k + 1) h.2]

theorem load_loop_none :
    ∀ (specs : List ClipSpec) (k : Nat), (load_loop specs k).2 = none →
      (load_loop specs k).1 = (List.range specs.length).map (fun x => x + k) := by
  intro specs
  induction specs with
  | nil => intro k _; rfl
  | cons s t ih =>
    intro k h
    by_cases hs : s.loadOk = true
    · simp only [load_loop, if_pos hs] at h ⊢
      rw [ih (k + 1) h]
      simp only [List.length_cons, List.range_succ_eq_map, List.map_cons, List.map_map,
        Nat.zero_add]
      refine congrArg (fun l => k :: l) ?_
      apply List.map_congr_left
      intro x _
      simp only [Function.comp_apply, Nat.succ_eq_add_one]
      omega
    · simp [load_loop, hs] at h

theorem build_power_hour_main (specs : List ClipSpec) (pN pO wO : Bool)
    (h1 : specs ≠ []) (h2 : (pN && !pO) = false) :
    build_power_hour specs pN pO wO =
      ⟨(load_loop specs 0).1, close_all specs (load_loop specs 0).1,
        match (load_loop specs 0).2 with
        | some i => Except.error (BuildErr.loadFail i)
        | none => if wO then Except.ok () else Except.error BuildErr.writeFail⟩ := by
  unfold build_power_hour
  rw [if_neg (by simp [h1]), if_neg (by simp [h2])]

/-- C9: whenever build_power_hour ends - by failure at any step after
per-clip handles were opened, or by success - every clip opened so far
receives a close call in the finally block (a closed event or a swallowed
close failure); the propagated result is a function of the load outcomes and
flags alone, so an exception raised while closing never masks the original
error; and on success or on a write failure the opened handles cover every
input clip, so the same cleanup runs there too. -/
theorem build_power_hour_cleanup :
    ∀ (specs : List ClipSpec) (pN pO wO : Bool),
      (∀ i, i ∈ (build_power_hour specs pN pO wO).openedIdx →
        CloseEv.closed i ∈ (build_power_hour specs pN pO wO).closeEvents
          ∨ CloseEv.closeRaisedSwallowed i ∈ (build_power_hour specs pN pO wO).closeEvents)
      ∧ (∀ specs2, specs2.map ClipSpec.loadOk = specs.map ClipSpec.loadOk →
          (build_power_hour specs2 pN pO wO).result = (build_power_hour specs pN pO wO).result)
      ∧ ((build_power_hour specs pN pO wO).result = Except.ok ()
          ∨ (build_power_hour specs pN pO wO).result = Except.error BuildErr.writeFail →
        (build_power_hour specs pN pO wO).openedIdx = List.range specs.length) := by
  intro specs pN pO wO
  by_cases h1 : specs = []
  · subst h1
    refine ⟨?_, ?_, ?_⟩
    · intro i hi
      simp [build_power_hour] at hi
    · intro specs2 hmap
      have h2 : specs2 = [] := by
        have := congrArg List.length hmap
        simpa using this
      subst h2
      rfl
    · intro hres
      simp [build_power_hour] at hres
  · by_cases h2 : (pN && !pO) = true
    · have hbp : build_power_hour specs pN pO wO
          = ⟨[], [], Except.error BuildErr.probeFail⟩ := by
        unfold build_power_hour
        rw [if_neg (by simp [h1]), if_pos h2]
      refine ⟨?_, ?_, ?_⟩
      · intro i hi
        rw [hbp] at hi
        simp at hi
      · intro specs2 hmap
        have h3 : specs2 ≠ [] := by
          intro h
          subst h
          simp at hmap
          exact h1 hmap
        have hbp2 : build_power_hour specs2 pN pO wO
            = ⟨[], [], Except.error BuildErr.probeFail⟩ := by
          unfold build_power_hour
          rw [if_neg (by simp [h3]), if_pos h2]
        rw [hbp, hbp2]
      · intro hres
        rw [hbp] at hres
        rcases hres with h | h <;> simp at h
    · have h2f : (pN && !pO) = false := by
        cases h : (pN && !pO)
        · rfl
        · exact absurd h h2
      rw [build_power_hour_main specs pN pO wO h1 h2f]
      refine ⟨?_, ?_, ?_⟩
      · intro i hi
        exact close_all_attempts specs _ i hi
      · intro specs2 hmap
        have h3 : specs2 ≠ [] := by
          intro h
          subst h
          simp at hmap
          exact h1 hmap
        have hll : load_loop specs2 0 = load_loop specs 0 := load_loop_congr specs specs2 0 hmap
        rw [build_power_hour_main specs2 pN pO wO h3 h2f, hll]
      · intro hres
        rcases hload : (load_loop specs 0).2 with _ | j
        · have := load_loop_none specs 0 hload
          simpa using this
        · simp only [hload] at hres
          rcases hres with h | h <;> simp at h

/-- C9 witness: with a first clip that opens but fails to close and a second
clip that fails to open, clip 0 is in the opened set and receives a close
attempt even though the run fails at clip 1. -/
theorem build_power_hour_cleanup_witness :
    (0 : Nat) ∈ (build_power_hour [⟨true, false⟩, ⟨false, true⟩] false true true).openedIdx
    ∧ (CloseEv.closed 0 ∈ (build_power_hour [⟨true, false⟩, ⟨false, true⟩] false true true).closeEvents
      ∨ CloseEv.closeRaisedSwallowed 0
          ∈ (build_power_hour [⟨true, false⟩, ⟨false, true⟩] false true true).closeEvents) :=
  ⟨by decide,
   (build_power_hour_cleanup ([⟨true, false⟩, ⟨false, true⟩] : List ClipSpec)
      false true true).1 0 (by decide)⟩

end PowerHour
